import Mathlib

/-!
Shallow embedding of the field-extraction engine of cbomdekont-backend.

The embedded code lives in `pkg/api/http/receipt.go` (the `ReceiptParser`
with its four strategy resolvers) and in the AWS service file
(`extractInfo`, the orchestrator).  Go slices become `List`, Go maps used
only for keyed insertion/lookup become association lists, `*string`
becomes `Option String`, `*int32` becomes `Option Int` with two's
complement wrap made explicit where the code adds 1 to a column index.
-/

set_option autoImplicit false

namespace Cbom

/-- Textract relationship: `Relationship{Type, Ids}`. -/
structure Relationship where
  type : String
  ids : List String
  deriving DecidableEq, Repr

/-- One Textract block, `types.Block`, restricted to the fields the parser
reads.  `Geometry`, `Confidence` and the span fields are never inspected by
the extraction code and are omitted as inert.  Pointer-typed fields
(`Text`, `Id`, `RowIndex`, `ColumnIndex`) become `Option`; nil slices and
empty slices are indistinguishable to the code (only `len` and indexing are
used), so `Relationships` and `EntityTypes` are plain lists. -/
structure Block where
  blockType : String
  text : Option String
  rowIndex : Option Int
  columnIndex : Option Int
  id : Option String
  relationships : List Relationship
  entityTypes : List String
  deriving DecidableEq, Repr

/-- `types.BlockTypeLine` -/
def blockTypeLine : String := "LINE"
/-- `types.BlockTypeKeyValueSet` -/
def blockTypeKeyValueSet : String := "KEY_VALUE_SET"
/-- `types.BlockTypeCell` -/
def blockTypeCell : String := "CELL"
/-- `types.EntityTypeKey` -/
def entityTypeKey : String := "KEY"
/-- `types.RelationshipTypeValue` -/
def relationshipTypeValue : String := "VALUE"

/-- `FieldStrategy{Key, Strategy}` from receipt.go. -/
structure FieldStrategy where
  key : String
  strategy : String
  deriving DecidableEq, Repr

/-- `DocumentSchema{Type, Fields}` from receipt.go.  The Go `Fields` map is
keyed by field name; it is embedded as an association list (Go map
iteration order is unspecified, and the claims below never depend on it). -/
structure DocumentSchema where
  type : String
  fields : List (String × FieldStrategy)
  deriving DecidableEq, Repr

/-- `ExtractedInfo = map[string]string`, embedded as an association list. -/
def ExtractedInfo := List (String × String)

/-- Two's complement wrap to 32 bits, for the one place the parser does
int32 arithmetic (`columnIndex+1` in `getValueFromNextCell`). -/
def wrap32 (n : Int) : Int :=
  (n + 2 ^ 31) % 2 ^ 32 - 2 ^ 31

/-- `findBlockById` (receipt.go:162-169): first block whose `Id` is non-nil
and equals `id`; `none` for unknown ids. -/
def findBlockById (blocks : List Block) (id : String) : Option Block :=
  blocks.find? (fun b => b.id == some id)

/-- The guard of `findKeyValueSet`'s scan (receipt.go:78-81): a
KEY_VALUE_SET block whose entity-type list is non-empty with first element
KEY, whose text is non-nil and equals `key`.  The Go code nests these
checks, and every failing path just continues the scan, so they combine
into one conjunction. -/
def isKvsKey (key : String) (b : Block) : Bool :=
  b.blockType == blockTypeKeyValueSet &&
  b.entityTypes.head? == some entityTypeKey &&
  b.text == some key

/-- Inner loop of `findKeyValueSet` over one relationship's `Ids`
(receipt.go:85-91): the first id that resolves to a block with non-nil
text yields that text; unresolved ids and text-less blocks are skipped. -/
def firstValueFromIds (blocks : List Block) : List String → Option String
  | [] => none
  | valueId :: rest =>
    match findBlockById blocks valueId with
    | some vb =>
      match vb.text with
      | some t => some t
      | none => firstValueFromIds blocks rest
    | none => firstValueFromIds blocks rest

/-- Middle loop of `findKeyValueSet` over `block.Relationships`
(receipt.go:83-93): only relationships of type VALUE are followed, in
order. -/
def firstValueFromRels (blocks : List Block) : List Relationship → Option String
  | [] => none
  | r :: rest =>
    if r.type == relationshipTypeValue then
      match firstValueFromIds blocks r.ids with
      | some t => some t
      | none => firstValueFromRels blocks rest
    else firstValueFromRels blocks rest

/-- Outer loop of `findKeyValueSet` (receipt.go:77-97).  `blocks` is the
full `p.blocks` (used for id lookup), the third argument is the scan
position.  When a matching key block produces no value through its
relationships the Go loop simply continues with the next block. -/
def findKeyValueSetAux (blocks : List Block) (key : String) : List Block → String
  | [] => ""
  | b :: rest =>
    if isKvsKey key b then
      match firstValueFromRels blocks b.relationships with
      | some t => t
      | none => findKeyValueSetAux blocks key rest
    else findKeyValueSetAux blocks key rest

/-- `findKeyValueSet` (receipt.go:75-100). -/
def findKeyValueSet (blocks : List Block) (key : String) : String :=
  findKeyValueSetAux blocks key blocks

/-- Guard of `findNextLine`'s scan (receipt.go:127): a LINE block with
non-nil text equal to `key`. -/
def isLineEq (key : String) (b : Block) : Bool :=
  b.blockType == blockTypeLine && b.text == some key

/-- `findNextLine` (receipt.go:125-137).  On a match the code inspects
`p.blocks[i+1]` (here the head of `rest`); if it is not a LINE with text,
or the match was the last block, the loop continues — it does not stop. -/
def findNextLine (key : String) : List Block → String
  | [] => ""
  | b :: rest =>
    if isLineEq key b then
      match rest with
      | [] => ""
      | nb :: _ =>
        if nb.blockType == blockTypeLine then
          match nb.text with
          | some t => t
          | none => findNextLine key rest
        else findNextLine key rest
    else findNextLine key rest

/-- `strings.Contains(s, sub)` on the character level. -/
def strContains (s sub : String) : Bool :=
  decide (sub.data <:+: s.data)

/-- The tail that `strings.SplitN(s, ":", 2)` produces as `parts[1]`:
`some` of everything after the first colon when a colon exists (then
`len(parts) == 2` in Go), `none` when there is no colon (then
`len(parts) == 1`). -/
def afterFirstColon : List Char → Option (List Char)
  | [] => none
  | c :: rest => if c == ':' then some rest else afterFirstColon rest

/-- Go's `unicode.IsSpace`: Latin-1 whitespace plus the Unicode
White_Space code points. -/
def goIsSpace (c : Char) : Bool :=
  c == '\t' || c == '\n' || c == Char.ofNat 11 || c == Char.ofNat 12 ||
  c == '\r' || c == ' ' || c == Char.ofNat 0x85 || c == Char.ofNat 0xA0 ||
  c == Char.ofNat 0x1680 ||
  (0x2000 ≤ c.toNat && c.toNat ≤ 0x200A) ||
  c == Char.ofNat 0x2028 || c == Char.ofNat 0x2029 ||
  c == Char.ofNat 0x202F || c == Char.ofNat 0x205F || c == Char.ofNat 0x3000

/-- `strings.TrimSpace`. -/
def trimSpace (s : String) : String :=
  String.mk (((s.data.dropWhile goIsSpace).reverse.dropWhile goIsSpace).reverse)

/-- Guard of `findSameLine`'s scan (receipt.go:141): a LINE block with
non-nil text containing `key` as a substring. -/
def isLineContaining (key : String) (b : Block) : Bool :=
  b.blockType == blockTypeLine &&
  (match b.text with
   | some t => strContains t key
   | none => false)

/-- `findSameLine` (receipt.go:139-149).  On a match the text is split at
the first colon; when there is no colon (`len(parts) != 2`) the Go loop
continues scanning. -/
def findSameLine (key : String) : List Block → String
  | [] => ""
  | b :: rest =>
    if isLineContaining key b then
      match b.text with
      | some t =>
        match afterFirstColon t.data with
        | some tail => trimSpace (String.mk tail)
        | none => findSameLine key rest
      | none => findSameLine key rest
    else findSameLine key rest

/-- Guard of `findInTable`'s outer scan (receipt.go:153): a CELL block with
non-nil text containing `key`. -/
def isCellContaining (key : String) (b : Block) : Bool :=
  b.blockType == blockTypeCell &&
  (match b.text with
   | some t => strContains t key
   | none => false)

/-- `getValueFromNextCell` (receipt.go:171-181): first CELL block whose
row index equals `rowIndex`, whose column index equals `columnIndex+1`
(int32 arithmetic), and whose text is non-nil. -/
def getValueFromNextCell (rowIndex columnIndex : Int) : List Block → String
  | [] => ""
  | b :: rest =>
    if b.blockType == blockTypeCell &&
       b.rowIndex == some rowIndex &&
       b.columnIndex == some (wrap32 (columnIndex + 1)) then
      match b.text with
      | some t => t
      | none => getValueFromNextCell rowIndex columnIndex rest
    else getValueFromNextCell rowIndex columnIndex rest

/-- Outer loop of `findInTable` (receipt.go:151-160).  `blocks` is the full
`p.blocks` handed to `getValueFromNextCell`; the scan returns on the first
text-matching cell that also carries both indices, and continues past
text-matching cells that lack either index. -/
def findInTableAux (blocks : List Block) (key : String) : List Block → String
  | [] => ""
  | b :: rest =>
    if isCellContaining key b then
      match b.rowIndex, b.columnIndex with
      | some r, some c => getValueFromNextCell r c blocks
      | _, _ => findInTableAux blocks key rest
    else findInTableAux blocks key rest

/-- `findInTable` (receipt.go:151-160). -/
def findInTable (blocks : List Block) (key : String) : String :=
  findInTableAux blocks key blocks

/-- `findFieldValue` (receipt.go:60-73): dispatch on the strategy name;
any unrecognized name falls to the default branch, the empty string. -/
def findFieldValue (blocks : List Block) (strategy : FieldStrategy) : String :=
  if strategy.strategy == "keyValueSet" then findKeyValueSet blocks strategy.key
  else if strategy.strategy == "nextLine" then findNextLine strategy.key blocks
  else if strategy.strategy == "sameLine" then findSameLine strategy.key blocks
  else if strategy.strategy == "table" then findInTable blocks strategy.key
  else ""

/-- `Parse` (receipt.go:32-58): run every declared field through
`findFieldValue` and keep only the non-empty results.  The Go code inserts
into a map keyed by field name; the embedding keeps the association pairs
in declaration order, which the orchestrator never depends on. -/
def Parse (blocks : List Block) (schema : DocumentSchema) : List (String × String) :=
  schema.fields.filterMap (fun fs =>
    let value := findFieldValue blocks fs.2
    if value == "" then none else some (fs.1, value))

/-- The two failures of `extractInfo`: `schema not found for document
type %s` and `no information could be extracted from the document`. -/
inductive ExtractErr where
  | schemaNotFound
  | nothingExtracted
  deriving DecidableEq, Repr

/-- `extractInfo` (AWS service file): look the document type up in the
schema map, parse, and fail when nothing was extracted.  The Go schema map
is embedded as an association list. -/
def extractInfo (schemas : List (String × DocumentSchema)) (blocks : List Block)
    (docType : String) : Except ExtractErr (List (String × String)) :=
  match schemas.lookup docType with
  | none => .error .schemaNotFound
  | some schema =>
    let extracted := Parse blocks schema
    if extracted.isEmpty then .error .nothingExtracted else .ok extracted

/-! ### Concrete blocks used by witnesses and counterexamples -/

/-- A LINE block carrying only text. -/
def lineBlock (t : String) : Block :=
  ⟨blockTypeLine, some t, none, none, none, [], []⟩

/-- A CELL block carrying text and grid coordinates. -/
def cellBlock (t : String) (r c : Int) : Block :=
  ⟨blockTypeCell, some t, some r, some c, none, [], []⟩

/-- A CELL block with coordinates but nil text. -/
def cellNoText (r c : Int) : Block :=
  ⟨blockTypeCell, none, some r, some c, none, [], []⟩

/-- A KEY_VALUE_SET key block with the given text and relationships. -/
def kvsKeyBlock (t : String) (rels : List Relationship) : Block :=
  ⟨blockTypeKeyValueSet, some t, none, none, none, rels, [entityTypeKey]⟩

/-- A KEY_VALUE_SET value block with the given id and text. -/
def kvsValueBlock (id : String) (t : Option String) : Block :=
  ⟨blockTypeKeyValueSet, t, none, none, some id, [], ["VALUE"]⟩

/-! ### Helper characterizations of the scan loops -/

/-- The outer loop of `findKeyValueSet` is a search for the first matching
key block whose relationships produce a value; matches without a value are
scanned past. -/
theorem findKeyValueSetAux_eq_find (blocks : List Block) (key : String)
    (l : List Block) :
    findKeyValueSetAux blocks key l =
      ((l.find? (fun b => isKvsKey key b &&
          (firstValueFromRels blocks b.relationships).isSome)).bind
        (fun b => firstValueFromRels blocks b.relationships)).getD "" := by
  induction l with
  | nil => rfl
  | cons b rest ih =>
    by_cases hk : isKvsKey key b = true
    · cases hv : firstValueFromRels blocks b.relationships with
      | some t => simp [findKeyValueSetAux, List.find?_cons, hk, hv]
      | none => simp [findKeyValueSetAux, List.find?_cons, hk, hv, ih]
    · simp [findKeyValueSetAux, List.find?_cons, hk, ih]

/-- The same loop phrased with `findSome?`. -/
theorem findKeyValueSetAux_eq_findSome (blocks : List Block) (key : String)
    (l : List Block) :
    findKeyValueSetAux blocks key l =
      (l.findSome? (fun b =>
        if isKvsKey key b then firstValueFromRels blocks b.relationships
        else none)).getD "" := by
  induction l with
  | nil => rfl
  | cons b rest ih =>
    by_cases hk : isKvsKey key b = true
    · cases hv : firstValueFromRels blocks b.relationships with
      | some t => simp [findKeyValueSetAux, List.findSome?_cons, hk, hv]
      | none => simp [findKeyValueSetAux, List.findSome?_cons, hk, hv, ih]
    · simp [findKeyValueSetAux, List.findSome?_cons, hk, ih]

/-- `getValueFromNextCell` is a search for the first CELL block with the
requested coordinates and non-nil text. -/
theorem getValueFromNextCell_eq_find (r c : Int) (l : List Block) :
    getValueFromNextCell r c l =
      ((l.find? (fun b => b.blockType == blockTypeCell &&
          b.rowIndex == some r &&
          b.columnIndex == some (wrap32 (c + 1)) &&
          b.text.isSome)).bind Block.text).getD "" := by
  induction l with
  | nil => rfl
  | cons b rest ih =>
    by_cases hc : (b.blockType == blockTypeCell && b.rowIndex == some r &&
        b.columnIndex == some (wrap32 (c + 1))) = true
    · cases ht : b.text with
      | some t => simp [getValueFromNextCell, List.find?_cons, hc, ht]
      | none => simp [getValueFromNextCell, List.find?_cons, hc, ht, ih]
    · simp [getValueFromNextCell, List.find?_cons, hc, ih]

/-! ### C1 — NextLine first-match semantics -/

/-- Block sequence refuting C1: the anchor "K" first occurs at index 0
followed by a CELL block, and occurs again at index 2 followed by a usable
LINE block. -/
def c1Blocks : List Block :=
  [lineBlock "K", ⟨blockTypeCell, some "x", none, none, none, [], []⟩,
   lineBlock "K", lineBlock "V"]

/-- C1 (counterexample): the claim says the NextLine resolver stops at the
first LINE block whose text equals the anchor and returns nothing when the
block after that first match is not a usable LINE.  On `c1Blocks` the
first match is at index 0 and is followed by a CELL block, yet the
resolver returns "V" (taken from the second occurrence of the anchor), not
nothing. -/
theorem c1_counterexample :
    List.findIdx? (isLineEq "K") c1Blocks = some 0 ∧
    (c1Blocks[1]?).map Block.blockType = some blockTypeCell ∧
    findNextLine "K" c1Blocks = "V" ∧
    findNextLine "K" c1Blocks ≠ "" := by
  refine ⟨by decide, by decide, by decide, by decide⟩

/-- C1 (amended): the NextLine resolver does not stop at the first
text-equal LINE block; it keeps scanning after a failed adjacency check
and returns the follower text of the first LINE block that both matches
the anchor exactly and is immediately followed by a LINE block with text,
or nothing when no occurrence has such a follower. -/
theorem c1_nextLine_first_usable_follower (key : String) (blocks : List Block) :
    findNextLine key blocks =
      (((blocks.zip blocks.tail).find? (fun p =>
          isLineEq key p.1 && p.2.blockType == blockTypeLine &&
          p.2.text.isSome)).bind (fun p => p.2.text)).getD "" := by
  induction blocks with
  | nil => rfl
  | cons b rest ih =>
    cases rest with
    | nil =>
      by_cases hk : isLineEq key b = true <;>
        simp [findNextLine, List.zip_nil_right, hk]
    | cons nb rest2 =>
      have hzip : (b :: nb :: rest2).zip (b :: nb :: rest2).tail
          = (b, nb) :: (nb :: rest2).zip ((nb :: rest2).tail) := by
        simp [List.zip_cons_cons]
      rw [hzip, List.find?_cons]
      by_cases hk : isLineEq key b = true
      · by_cases hb : (nb.blockType == blockTypeLine) = true
        · cases ht : nb.text with
          | some t =>
            have hstep : findNextLine key (b :: nb :: rest2) = t := by
              rw [findNextLine]
              simp [hk, hb, ht]
            rw [hstep]
            simp [hk, hb, ht]
          | none =>
            have hstep : findNextLine key (b :: nb :: rest2)
                = findNextLine key (nb :: rest2) := by
              rw [findNextLine]
              simp [hk, hb, ht]
            rw [hstep, ih]
            simp [hk, hb, ht]
        · have hstep : findNextLine key (b :: nb :: rest2)
              = findNextLine key (nb :: rest2) := by
            rw [findNextLine]
            simp [hk, hb]
          rw [hstep, ih]
          simp [hk, hb]
      · have hstep : findNextLine key (b :: nb :: rest2)
            = findNextLine key (nb :: rest2) := by
          rw [findNextLine]
          simp [hk]
        rw [hstep, ih]
        simp [hk]

/-! ### C2 — KeyValueSet adjacency fallback -/

/-- Block sequence refuting C2: a matching key block with no
relationships, immediately followed by a LINE block with text "V". -/
def c2Blocks : List Block :=
  [kvsKeyBlock "K" [], lineBlock "V"]

/-- C2 (counterexample): the claim says that when a matching KEY_VALUE_SET
key block has no relationship that yields a value, the resolver falls back
to the immediately following block when it is a LINE with text.  On
`c2Blocks` the key block at index 0 matches "K" and yields no value
through relationships, and the next block is a LINE with text "V" — the
claim therefore demands "V", but `findKeyValueSet` returns nothing: no
such fallback exists in the code. -/
theorem c2_counterexample :
    (c2Blocks[0]?).map (isKvsKey "K") = some true ∧
    (c2Blocks[0]?).map (fun b => firstValueFromRels c2Blocks b.relationships)
      = some none ∧
    (c2Blocks[1]?).map Block.blockType = some blockTypeLine ∧
    ((c2Blocks[1]?).bind Block.text) = some "V" ∧
    findKeyValueSet c2Blocks "K" = "" := by
  refine ⟨by decide, by decide, by decide, by decide, by decide⟩

/-- C2 (amended): the KeyValueSet resolver has no adjacency fallback.  Its
result is determined entirely by relationship traversal: it returns the
relationship-derived value of the first matching key block whose VALUE
relationships yield a block with text, scanning past matching key blocks
that yield none, and returns nothing when no matching key block yields a
value through relationships — whatever block follows the key block in the
sequence. -/
theorem c2_keyValueSet_no_fallback (blocks : List Block) (key : String) :
    findKeyValueSet blocks key =
      ((blocks.find? (fun b => isKvsKey key b &&
          (firstValueFromRels blocks b.relationships).isSome)).bind
        (fun b => firstValueFromRels blocks b.relationships)).getD "" :=
  findKeyValueSetAux_eq_find blocks key blocks

/-! ### C5 — KeyValueSet relationship traversal -/

/-- Block sequence refuting C5's "only the first key match is used": the
first matching key block has no relationships, the second matching key
block resolves to "42". -/
def c5Blocks : List Block :=
  [kvsKeyBlock "K" [], kvsKeyBlock "K" [⟨relationshipTypeValue, ["v1"]⟩],
   kvsValueBlock "v1" (some "42")]

/-- C5 (counterexample): the claim says the resolver uses only the first
matching KEY_VALUE_SET key block.  On `c5Blocks` the first matching key
block (index 0) yields no value through its relationships, so under the
claim the resolver would return nothing; the code scans on to the second
matching key block and returns "42". -/
theorem c5_counterexample :
    (c5Blocks[0]?).map (isKvsKey "K") = some true ∧
    (c5Blocks[0]?).map (fun b => firstValueFromRels c5Blocks b.relationships)
      = some none ∧
    findKeyValueSet c5Blocks "K" = "42" := by
  refine ⟨by decide, by decide, by decide⟩

/-- C5 (amended): the KeyValueSet resolver scans matching KEY_VALUE_SET
key blocks in input order and returns the value of the first one whose
VALUE relationships, followed in order, reference a block with present
text (not merely the first matching key block); relationship ids that do
not resolve to any block in the graph are skipped as not found and never
cause an error. -/
theorem c5_keyValueSet_first_valued_match :
    (∀ (blocks : List Block) (key : String),
      findKeyValueSet blocks key =
        (blocks.findSome? (fun b =>
          if isKvsKey key b then firstValueFromRels blocks b.relationships
          else none)).getD "") ∧
    (∀ (blocks : List Block) (id : String) (ids : List String),
      findBlockById blocks id = none →
        firstValueFromIds blocks (id :: ids) = firstValueFromIds blocks ids) := by
  constructor
  · intro blocks key
    exact findKeyValueSetAux_eq_findSome blocks key blocks
  · intro blocks id ids h
    simp [firstValueFromIds, h]

/-- Witness for C5: a dangling relationship id ("ghost") in front of a
resolving one is skipped. -/
theorem c5_witness :
    findBlockById [kvsValueBlock "v1" (some "42")] "ghost" = none ∧
    firstValueFromIds [kvsValueBlock "v1" (some "42")] ["ghost", "v1"] =
      firstValueFromIds [kvsValueBlock "v1" (some "42")] ["v1"] :=
  ⟨by decide,
   c5_keyValueSet_first_valued_match.2 [kvsValueBlock "v1" (some "42")]
     "ghost" ["v1"] (by decide)⟩

/-! ### C3 / C4 — orchestrator failure modes -/

/-- Every resolver, and hence the dispatch, yields nothing on an empty
block graph. -/
theorem findFieldValue_nil (strategy : FieldStrategy) :
    findFieldValue [] strategy = "" := by
  unfold findFieldValue
  split_ifs <;> rfl

/-- `Parse` produces the empty mapping exactly when every declared field's
resolver returns the empty string. -/
theorem parse_eq_nil_iff (blocks : List Block) (schema : DocumentSchema) :
    Parse blocks schema = [] ↔
      ∀ fs ∈ schema.fields, findFieldValue blocks fs.2 = "" := by
  rw [Parse, List.filterMap_eq_nil_iff]
  constructor
  · intro h fs hm
    have hfs := h fs hm
    by_cases hv : (findFieldValue blocks fs.2 == "") = true
    · exact eq_of_beq hv
    · simp [hv] at hfs
  · intro h fs hm
    simp [h fs hm]

/-- C3: an unregistered document type makes the orchestrator fail with
SchemaNotFound, and the block graph has no influence: any two block graphs
give the same outcome. -/
theorem c3_schema_not_found (schemas : List (String × DocumentSchema))
    (docType : String) (h : schemas.lookup docType = none)
    (blocks blocks' : List Block) :
    extractInfo schemas blocks docType = .error .schemaNotFound ∧
    extractInfo schemas blocks docType = extractInfo schemas blocks' docType := by
  constructor <;> simp [extractInfo, h]

/-- Witness for C3: the empty schema set registers no type, so extraction
over a non-empty block graph fails with SchemaNotFound. -/
theorem c3_witness :
    ([] : List (String × DocumentSchema)).lookup "receipt" = none ∧
    extractInfo [] [lineBlock "Total"] "receipt" = .error .schemaNotFound :=
  ⟨rfl, (c3_schema_not_found [] "receipt" rfl [lineBlock "Total"] []).1⟩

/-- C4: for a registered document type, the orchestrator fails with
NothingExtracted exactly when every declared field's resolver returns
nothing; every resolver returns nothing on a zero-block graph, so the
orchestrator fails with NothingExtracted there. -/
theorem c4_nothing_extracted (schemas : List (String × DocumentSchema))
    (docType : String) (schema : DocumentSchema)
    (h : schemas.lookup docType = some schema) :
    (∀ blocks, extractInfo schemas blocks docType = .error .nothingExtracted ↔
      ∀ fs ∈ schema.fields, findFieldValue blocks fs.2 = "") ∧
    (∀ strategy, findFieldValue [] strategy = "") ∧
    extractInfo schemas [] docType = .error .nothingExtracted := by
  have hmain : ∀ blocks,
      extractInfo schemas blocks docType = .error .nothingExtracted ↔
        ∀ fs ∈ schema.fields, findFieldValue blocks fs.2 = "" := by
    intro blocks
    rw [← parse_eq_nil_iff blocks schema, ← List.isEmpty_iff]
    unfold extractInfo
    rw [h]
    by_cases he : (Parse blocks schema).isEmpty = true
    · simp [he]
    · simp [he]
  refine ⟨hmain, findFieldValue_nil, ?_⟩
  exact (hmain []).mpr (fun fs _ => findFieldValue_nil fs.2)

/-- Witness for C4: a one-schema set whose single field cannot resolve on
an empty block graph. -/
theorem c4_witness :
    ([("receipt", DocumentSchema.mk "receipt" [("total", ⟨"Total", "sameLine"⟩)])].lookup "receipt"
      = some (DocumentSchema.mk "receipt" [("total", ⟨"Total", "sameLine"⟩)])) ∧
    extractInfo [("receipt", DocumentSchema.mk "receipt" [("total", ⟨"Total", "sameLine"⟩)])] []
      "receipt" = .error .nothingExtracted :=
  ⟨by decide,
   (c4_nothing_extracted
     [("receipt", DocumentSchema.mk "receipt" [("total", ⟨"Total", "sameLine"⟩)])]
     "receipt" (DocumentSchema.mk "receipt" [("total", ⟨"Total", "sameLine"⟩)])
     (by decide)).2.2⟩

/-! ### C6 — SameLine resolver -/

/-- Block sequence refuting C6: the anchor "K" is contained in the first
LINE block's text, which has no colon; a later LINE block contains both
the anchor and a colon. -/
def c6Blocks : List Block :=
  [lineBlock "K x", lineBlock "K: V"]

/-- C6 (counterexample): the claim says the SameLine resolver works on the
first LINE block containing the anchor and returns nothing when that text
has no colon.  On `c6Blocks` the first containing LINE is at index 0 and
its text "K x" has no colon, yet the resolver scans on and returns "V"
from the second LINE. -/
theorem c6_counterexample :
    List.findIdx? (isLineContaining "K") c6Blocks = some 0 ∧
    ((c6Blocks[0]?).bind Block.text).map
      (fun t => (afterFirstColon t.data).isSome) = some false ∧
    findSameLine "K" c6Blocks = "V" ∧
    findSameLine "K" c6Blocks ≠ "" := by
  refine ⟨by decide, by decide, by decide, by decide⟩

/-- C6 (amended): the SameLine resolver scans LINE blocks whose text
contains the anchor as a substring and returns the whitespace-trimmed
remainder after the first colon of the first such block whose text
contains a colon — scanning past containing blocks without a colon — and
returns nothing when no containing LINE block has a colon. -/
theorem c6_sameLine_first_colon_split (key : String) (blocks : List Block) :
    findSameLine key blocks =
      (blocks.findSome? (fun b =>
        if isLineContaining key b then
          b.text.bind (fun t => (afterFirstColon t.data).map
            (fun tail => trimSpace (String.mk tail)))
        else none)).getD "" := by
  induction blocks with
  | nil => rfl
  | cons b rest ih =>
    rw [List.findSome?_cons]
    by_cases hk : isLineContaining key b = true
    · cases ht : b.text with
      | some t =>
        cases hc : afterFirstColon t.data with
        | some tail =>
          have hstep : findSameLine key (b :: rest)
              = trimSpace (String.mk tail) := by
            rw [findSameLine]
            simp [hk, ht, hc]
          rw [hstep]
          simp [hk, ht, hc]
        | none =>
          have hstep : findSameLine key (b :: rest) = findSameLine key rest := by
            rw [findSameLine]
            simp [hk, ht, hc]
          rw [hstep, ih]
          simp [hk, ht, hc]
      | none =>
        have hstep : findSameLine key (b :: rest) = findSameLine key rest := by
          rw [findSameLine]
          simp [hk, ht]
        rw [hstep, ih]
        simp [hk, ht]
    · have hstep : findSameLine key (b :: rest) = findSameLine key rest := by
        rw [findSameLine]
        simp [hk]
      rw [hstep, ih]
      simp [hk]

/-! ### C7 — Table resolver -/

/-- The outer loop of `findInTable` is a search for the first CELL block
containing the anchor that also carries both coordinates. -/
theorem findInTableAux_eq_find (blocks : List Block) (key : String)
    (l : List Block) :
    findInTableAux blocks key l =
      match l.find? (fun b => isCellContaining key b &&
          b.rowIndex.isSome && b.columnIndex.isSome) with
      | none => ""
      | some a =>
        getValueFromNextCell (a.rowIndex.getD 0) (a.columnIndex.getD 0) blocks := by
  induction l with
  | nil => rfl
  | cons b rest ih =>
    rw [List.find?_cons]
    by_cases hk : isCellContaining key b = true
    · cases hr : b.rowIndex with
      | some r =>
        cases hc : b.columnIndex with
        | some c =>
          have hstep : findInTableAux blocks key (b :: rest)
              = getValueFromNextCell r c blocks := by
            rw [findInTableAux]
            simp [hk, hr, hc]
          rw [hstep]
          simp [hk, hr, hc]
        | none =>
          have hstep : findInTableAux blocks key (b :: rest)
              = findInTableAux blocks key rest := by
            rw [findInTableAux]
            simp [hk, hr, hc]
          rw [hstep, ih]
          simp [hk, hr, hc]
      | none =>
        have hstep : findInTableAux blocks key (b :: rest)
            = findInTableAux blocks key rest := by
          rw [findInTableAux]
          simp [hk, hr]
        rw [hstep, ih]
        simp [hk, hr]
    · have hstep : findInTableAux blocks key (b :: rest)
          = findInTableAux blocks key rest := by
        rw [findInTableAux]
        simp [hk]
      rw [hstep, ih]
      simp [hk]

/-- C7: the Table resolver anchors on the first CELL block whose text
contains the anchor and which carries both coordinates, and returns the
text of the first CELL block in the graph whose row equals the anchor's
row, whose column equals the anchor's column plus one (int32 arithmetic),
and whose text is present; it returns nothing when no anchor cell exists
or no such adjacent cell exists. -/
theorem c7_table_adjacent_cell (blocks : List Block) (key : String) :
    findInTable blocks key =
      match blocks.find? (fun b => isCellContaining key b &&
          b.rowIndex.isSome && b.columnIndex.isSome) with
      | none => ""
      | some a =>
        ((blocks.find? (fun b => b.blockType == blockTypeCell &&
            b.rowIndex == a.rowIndex &&
            b.columnIndex == a.columnIndex.map (fun c => wrap32 (c + 1)) &&
            b.text.isSome)).bind Block.text).getD "" := by
  rw [findInTable, findInTableAux_eq_find]
  cases hfind : blocks.find? (fun b => isCellContaining key b &&
      b.rowIndex.isSome && b.columnIndex.isSome) with
  | none => rfl
  | some a =>
    dsimp only
    have hp := List.find?_some hfind
    simp only [Bool.and_eq_true] at hp
    obtain ⟨r, hr⟩ := Option.isSome_iff_exists.mp hp.1.2
    obtain ⟨c, hc⟩ := Option.isSome_iff_exists.mp hp.2
    rw [getValueFromNextCell_eq_find]
    have hpred : (fun b : Block => b.blockType == blockTypeCell &&
        b.rowIndex == some (a.rowIndex.getD 0) &&
        b.columnIndex == some (wrap32 (a.columnIndex.getD 0 + 1)) &&
        b.text.isSome) =
      (fun b : Block => b.blockType == blockTypeCell &&
        b.rowIndex == a.rowIndex &&
        b.columnIndex == a.columnIndex.map (fun c => wrap32 (c + 1)) &&
        b.text.isSome) := by
      funext b
      simp [hr, hc]
    rw [hpred]

/-! ### C8 — no empty-string values in the output -/

/-- An association list whose every key differs from `k` looks up `k` to
nothing. -/
theorem lookup_eq_none_of_keys_ne {β : Type} (l : List (String × β)) (k : String)
    (h : ∀ p ∈ l, p.1 ≠ k) : l.lookup k = none := by
  induction l with
  | nil => rfl
  | cons p rest ih =>
    obtain ⟨a, b⟩ := p
    have hp : a ≠ k := h (a, b) (by simp)
    have hb : (k == a) = false := by simp [Ne.symm hp]
    simp only [List.lookup, hb]
    exact ih (fun q hq => h q (by simp [hq]))

/-- C8: a successful extraction never maps a field to the empty string —
an entry of the output always carries a non-empty value — and a field
whose resolver produces the empty string is absent from the output
entirely (its name looks up to nothing, given that the schema declares
each field name once, as a Go map does). -/
theorem c8_no_empty_values :
    (∀ (blocks : List Block) (schema : DocumentSchema) (p : String × String),
      p ∈ Parse blocks schema → p.2 ≠ "") ∧
    (∀ (blocks : List Block) (schema : DocumentSchema)
        (fs : String × FieldStrategy),
      fs ∈ schema.fields → findFieldValue blocks fs.2 = "" →
      (schema.fields.map Prod.fst).Nodup →
      (Parse blocks schema).lookup fs.1 = none) := by
  constructor
  · intro blocks schema p hp
    rw [Parse] at hp
    obtain ⟨a, _, hfa⟩ := List.mem_filterMap.mp hp
    by_cases hv : (findFieldValue blocks a.2 == "") = true
    · simp [hv] at hfa
    · simp only [hv, Bool.false_eq_true, if_false, Option.some.injEq] at hfa
      rw [← hfa]
      simpa using hv
  · intro blocks schema fs hfs hempty hnodup
    apply lookup_eq_none_of_keys_ne
    intro p hp
    rw [Parse] at hp
    obtain ⟨a, ha, hfa⟩ := List.mem_filterMap.mp hp
    by_cases hv : (findFieldValue blocks a.2 == "") = true
    · simp [hv] at hfa
    · simp only [hv, Bool.false_eq_true, if_false, Option.some.injEq] at hfa
      intro hk
      have hak : a.1 = fs.1 := by rw [← hfa] at hk; exact hk
      have : a = fs := List.inj_on_of_nodup_map hnodup ha hfs hak
      rw [this] at hv
      simp [hempty] at hv

/-- Witness for C8: the field "customer" resolves to "Jane" (non-empty)
and the unresolvable field "ghost" is absent from the output. -/
theorem c8_witness :
    ("customer", "Jane") ∈
      Parse [lineBlock "Customer: Jane"]
        ⟨"r", [("customer", ⟨"Customer", "sameLine"⟩), ("ghost", ⟨"Nope", "sameLine"⟩)]⟩ ∧
    ("Jane" : String) ≠ "" ∧
    (Parse [lineBlock "Customer: Jane"]
        ⟨"r", [("customer", ⟨"Customer", "sameLine"⟩), ("ghost", ⟨"Nope", "sameLine"⟩)]⟩).lookup
      "ghost" = none :=
  ⟨by decide,
   c8_no_empty_values.1 [lineBlock "Customer: Jane"]
     ⟨"r", [("customer", ⟨"Customer", "sameLine"⟩), ("ghost", ⟨"Nope", "sameLine"⟩)]⟩
     ("customer", "Jane") (by decide),
   c8_no_empty_values.2 [lineBlock "Customer: Jane"]
     ⟨"r", [("customer", ⟨"Customer", "sameLine"⟩), ("ghost", ⟨"Nope", "sameLine"⟩)]⟩
     ("ghost", ⟨"Nope", "sameLine"⟩) (by decide) (by decide) (by decide)⟩

/-! ### C9 — unknown strategy names -/

/-- C9: a field whose strategy name is none of the four recognized ones
resolves to nothing through the dispatch default, and removing such a
field declaration from a schema leaves the whole extraction result of the
remaining fields untouched. -/
theorem c9_unknown_strategy (strategy : FieldStrategy)
    (h : strategy.strategy ∉
      (["keyValueSet", "nextLine", "sameLine", "table"] : List String)) :
    (∀ blocks : List Block, findFieldValue blocks strategy = "") ∧
    (∀ (blocks : List Block) (t f : String)
        (l1 l2 : List (String × FieldStrategy)),
      Parse blocks ⟨t, l1 ++ (f, strategy) :: l2⟩ = Parse blocks ⟨t, l1 ++ l2⟩) := by
  simp only [List.mem_cons, List.not_mem_nil, or_false, not_or] at h
  obtain ⟨h1, h2, h3, h4⟩ := h
  have hval : ∀ blocks : List Block, findFieldValue blocks strategy = "" := by
    intro blocks
    unfold findFieldValue
    simp [h1, h2, h3, h4]
  refine ⟨hval, ?_⟩
  intro blocks t f l1 l2
  simp [Parse, List.filterMap_append, List.filterMap_cons, hval blocks]

/-- Witness for C9: the strategy name "regex" is not recognized and the
field declaring it drops out of the extraction. -/
theorem c9_witness :
    (FieldStrategy.mk "Total" "regex").strategy ∉
      (["keyValueSet", "nextLine", "sameLine", "table"] : List String) ∧
    findFieldValue [lineBlock "Total", lineBlock "42"] ⟨"Total", "regex"⟩ = "" :=
  ⟨by decide,
   (c9_unknown_strategy ⟨"Total", "regex"⟩ (by decide)).1
     [lineBlock "Total", lineBlock "42"]⟩

/-! ### C10 — adjacent-cell lookup over the whole graph -/

/-- C10: the adjacent-cell lookup scans the whole block sequence — it is
not scoped to any table — and returns the text of the first CELL block in
input order whose row and column equal (anchor row, anchor column + 1,
int32 arithmetic) and whose text is present; a coordinate-matching cell
without text is skipped in favor of later blocks. -/
theorem c10_next_cell_lookup :
    (∀ (r c : Int) (blocks : List Block),
      getValueFromNextCell r c blocks =
        ((blocks.find? (fun b => b.blockType == blockTypeCell &&
            b.rowIndex == some r &&
            b.columnIndex == some (wrap32 (c + 1)) &&
            b.text.isSome)).bind Block.text).getD "") ∧
    (∀ (r c : Int) (blocks : List Block) (b : Block),
      b.blockType = blockTypeCell → b.rowIndex = some r →
      b.columnIndex = some (wrap32 (c + 1)) → b.text = none →
      getValueFromNextCell r c (b :: blocks) = getValueFromNextCell r c blocks) := by
  refine ⟨getValueFromNextCell_eq_find, ?_⟩
  intro r c blocks b h1 h2 h3 h4
  rw [getValueFromNextCell]
  simp [h1, h2, h3, h4]

/-- Witness for C10: a coordinate-matching CELL without text in front of
the graph is skipped, and the later matching cell supplies "3". -/
theorem c10_witness :
    (cellNoText 1 2).text = none ∧
    getValueFromNextCell 1 1 (cellNoText 1 2 :: [cellBlock "3" 1 2]) =
      getValueFromNextCell 1 1 [cellBlock "3" 1 2] ∧
    getValueFromNextCell 1 1 [cellBlock "3" 1 2] = "3" :=
  ⟨rfl,
   c10_next_cell_lookup.2 1 1 [cellBlock "3" 1 2] (cellNoText 1 2)
     rfl rfl (by decide) rfl,
   by decide⟩

end Cbom
